import Mathlib

/-!
Verification of the peer-connection transport controller
(`pkg/rtc/transport.go`) and the stream tracker manager (package `sfu`)
of the livekit-server repository.

The Go code is embedded shallowly: the observable state of the underlying
pion peer connection is an explicit record, and the fallible engine calls
(`AddICECandidate`, `SetRemoteDescription`, `CreateOffer`,
`SetLocalDescription`) are resolved by an environment oracle fixing which
calls succeed.  Offers handed to the `onOffer` callback and payloads handed
to the availability callback are returned as explicit lists.
-/

namespace LiveKit

/-- Result of a Go call returning `(α, error)` (or just `error`, with
`α = Unit`): either the value, or an error. -/
inductive GoResult (α : Type) where
  | ok (a : α)
  | err
deriving DecidableEq, Repr

/-- SDP type of a session description (`webrtc.SDPType`). -/
inductive SDPType
  | offer
  | pranswer
  | answer
  | rollback
deriving DecidableEq, Repr

/-- A session description: its type plus an opaque SDP payload, numbered. -/
structure SessionDescription where
  sdpType : SDPType
  sdp : Nat
deriving DecidableEq, Repr

/-- Connection state of a peer connection (`webrtc.PeerConnectionState`). -/
inductive PeerConnectionState
  | new | connecting | connected | disconnected | failed | closed
deriving DecidableEq, Repr

/-- ICE gathering state of a peer connection (`webrtc.ICEGatheringState`,
and the terminal values of `webrtc.ICEGathererState` seen by the
gathering-state-change handler). -/
inductive ICEGatheringState
  | new | gathering | complete
deriving DecidableEq, Repr

/-- Kind of a track or transceiver: audio or video. -/
inductive TrackKind
  | audio | video
deriving DecidableEq, Repr

/-- Codec capability; only the MIME type is consulted by the transport. -/
structure RTPCodecCapability where
  mimeType : String
deriving DecidableEq, Repr

/-- A local track; only its kind is consulted by the transport. -/
structure TrackLocal where
  kind : TrackKind
deriving DecidableEq, Repr

/-- An RTP sender: the track it currently carries (if any) and the codecs
reported by `GetParameters().Codecs`, projected to their capabilities. -/
structure RTPSender where
  track : Option TrackLocal
  codecs : List RTPCodecCapability
deriving DecidableEq, Repr

/-- A transceiver of the peer connection: kind, mid, and optional sender. -/
structure RTPTransceiver where
  kind : TrackKind
  mid : String
  sender : Option RTPSender
deriving DecidableEq, Repr

/-- Observable state of the underlying pion peer connection, as consulted
and mutated by the transport controller.  `appliedCandidates` is the log of
ICE candidates successfully applied through `pc.AddICECandidate`, in call
order; candidates themselves are numbered. -/
structure PeerConn where
  remoteDescription : Option SessionDescription
  currentRemoteDescription : Option SessionDescription
  connectionState : PeerConnectionState
  iceGatheringState : ICEGatheringState
  appliedCandidates : List Nat
  transceivers : List RTPTransceiver
deriving DecidableEq, Repr

/-- Environment oracle fixing the behaviour of the fallible engine calls:
which candidates the engine accepts, which remote descriptions it accepts,
whether offer creation succeeds and the payload of the created offer, and
which local descriptions it accepts. -/
structure PCEnv where
  addOk : Nat → Bool
  srdOk : SessionDescription → Bool
  createOfferOk : Bool
  offerSdp : Nat
  setLocalOk : SessionDescription → Bool

/-- Engine call `pc.AddICECandidate(c)`: on success the candidate is appended
to the log of applied candidates. -/
def pcAddICECandidate (env : PCEnv) (pc : PeerConn) (c : Nat) : GoResult PeerConn :=
  if env.addOk c then
    .ok { pc with appliedCandidates := pc.appliedCandidates ++ [c] }
  else
    .err

/-- Engine call `pc.SetRemoteDescription(sd)`: on success the remote
description is installed; an applied answer also becomes the current remote
description. -/
def pcSetRemoteDescription (env : PCEnv) (pc : PeerConn) (sd : SessionDescription) :
    GoResult PeerConn :=
  if env.srdOk sd then
    .ok { pc with
            remoteDescription := some sd
            currentRemoteDescription :=
              if sd.sdpType = .answer then some sd else pc.currentRemoteDescription }
  else
    .err

/-- Engine call `pc.CreateOffer(options)`: on success an offer description
with the oracle's payload is produced.  The options only influence the SDP
contents, which are opaque here. -/
def pcCreateOffer (env : PCEnv) : GoResult SessionDescription :=
  if env.createOfferOk then .ok ⟨.offer, env.offerSdp⟩ else .err

/-- Engine call `pc.SetLocalDescription(sd)`. -/
def pcSetLocalDescription (env : PCEnv) (pc : PeerConn) (sd : SessionDescription) :
    GoResult PeerConn :=
  if env.setLocalOk sd then .ok pc else .err

/-- The `negotiationState*` constants of `transport.go`. -/
inductive NegotiationState
  | negotiationStateNone
  | negotiationStateClient
  | negotiationRetry
deriving DecidableEq, Repr

/-- `webrtc.OfferOptions`; only `ICERestart` is consulted. -/
structure OfferOptions where
  iceRestart : Bool
deriving DecidableEq, Repr

/-- The `PCTransport` record: wrapped peer connection, the
`mid → codecs` map, the pending-candidate queue, whether an `onOffer`
callback has been registered, the `restartAfterGathering` flag and the
negotiation state. -/
structure PCTransport where
  pc : PeerConn
  transceiverCodecs : List (String × List RTPCodecCapability)
  pendingCandidates : List Nat
  onOfferSet : Bool
  restartAfterGathering : Bool
  negotiationState : NegotiationState
deriving DecidableEq, Repr

/-- Read of the Go map `t.transceiverCodecs[mid]`; a missing key reads as
the empty list (Go `nil`). -/
def lookupCodecs (m : List (String × List RTPCodecCapability)) (mid : String) :
    List RTPCodecCapability :=
  match m.find? (fun p => p.1 == mid) with
  | some p => p.2
  | none => []

/-- Write of the Go map `t.transceiverCodecs[mid] = caps`. -/
def setCodecs (m : List (String × List RTPCodecCapability)) (mid : String)
    (caps : List RTPCodecCapability) : List (String × List RTPCodecCapability) :=
  match m with
  | [] => [(mid, caps)]
  | p :: rest => if p.1 == mid then (mid, caps) :: rest else p :: setCodecs rest mid caps

/-- The recording loop at the end of `createAndSendOffer`: for every
transceiver whose sender currently has a track, record
`mid ↦ codec capabilities`. -/
def recordCodecs (m : List (String × List RTPCodecCapability)) :
    List RTPTransceiver → List (String × List RTPCodecCapability)
  | [] => m
  | tr :: rest =>
    match tr.sender with
    | none => recordCodecs m rest
    | some s =>
      match s.track with
      | none => recordCodecs m rest
      | some _ => recordCodecs (setCodecs m tr.mid s.codecs) rest

/-- Result of `createAndSendOffer`: the Go return value, the transport after
the call, and the offers handed to the `onOffer` callback during the call. -/
structure COSResult where
  res : GoResult Unit
  t : PCTransport
  offers : List SessionDescription
deriving DecidableEq, Repr

/-- Tail of `createAndSendOffer` from the `CreateOffer` engine call on:
create the offer, set it as local description, enter
`negotiationStateClient`, clear `restartAfterGathering`, record the
transceiver codecs and deliver the offer to the callback. -/
def finishOffer (env : PCEnv) (t : PCTransport) : COSResult :=
  match pcCreateOffer env with
  | .err => ⟨.err, t, []⟩
  | .ok offer =>
    match pcSetLocalDescription env t.pc offer with
    | .err => ⟨.err, t, []⟩
    | .ok pc' =>
      ⟨.ok (), { t with
          pc := pc'
          negotiationState := .negotiationStateClient
          restartAfterGathering := false
          transceiverCodecs := recordCodecs t.transceiverCodecs pc'.transceivers },
        [offer]⟩

/-- The line `iceRestart := options != nil && options.ICERestart` of
`createAndSendOffer`. -/
def optICERestart : Option OfferOptions → Bool
  | some o => o.iceRestart
  | none => false

/-- `PCTransport.createAndSendOffer` (`transport.go`). -/
def createAndSendOffer (env : PCEnv) (t : PCTransport) (options : Option OfferOptions) :
    COSResult :=
  if t.onOfferSet = false then ⟨.ok (), t, []⟩
  else if t.pc.connectionState = .closed then ⟨.ok (), t, []⟩
  else
    let iceRestart := optICERestart options
    if iceRestart = true ∧ t.pc.iceGatheringState = .gathering then
      ⟨.ok (), { t with restartAfterGathering := true }, []⟩
    else if t.negotiationState = .negotiationStateClient then
      match t.pc.currentRemoteDescription with
      | some currentSD =>
        if iceRestart = true then
          match pcSetRemoteDescription env t.pc currentSD with
          | .err => ⟨.err, t, []⟩
          | .ok pc' => finishOffer env { t with pc := pc' }
        else ⟨.ok (), { t with negotiationState := .negotiationRetry }, []⟩
      | none => ⟨.ok (), { t with negotiationState := .negotiationRetry }, []⟩
    else if t.negotiationState = .negotiationRetry then ⟨.ok (), t, []⟩
    else finishOffer env t

/-- `PCTransport.AddICECandidate`.  On error the transport is unchanged, so
the result is the updated transport or the error. -/
def AddICECandidate (env : PCEnv) (t : PCTransport) (c : Nat) : GoResult PCTransport :=
  if t.pc.remoteDescription = none then
    .ok { t with pendingCandidates := t.pendingCandidates ++ [c] }
  else
    match pcAddICECandidate env t.pc c with
    | .err => .err
    | .ok pc' => .ok { t with pc := pc' }

/-- The candidate-drain loop of `SetRemoteDescription`: apply the pending
candidates in order; the first failure aborts the loop and the result is the
error together with the peer connection as mutated so far. -/
def drainCandidates (env : PCEnv) (pc : PeerConn) :
    List Nat → PeerConn × GoResult Unit
  | [] => (pc, .ok ())
  | c :: rest =>
    match pcAddICECandidate env pc c with
    | .err => (pc, .err)
    | .ok pc' => drainCandidates env pc' rest

/-- Result of `SetRemoteDescription`: Go return value, the transport after
the call, and the offers handed to the `onOffer` callback during the call. -/
structure SRDResult where
  res : GoResult Unit
  t : PCTransport
  offers : List SessionDescription
deriving DecidableEq, Repr

/-- `PCTransport.SetRemoteDescription` (`transport.go`): apply the remote
description, snapshot and reset the negotiation state, drain the pending
candidates, and when the snapshot was `negotiationRetry` and an answer was
applied, immediately re-negotiate (errors of that follow-up offer are logged
and swallowed). -/
def SetRemoteDescription (env : PCEnv) (t : PCTransport) (sd : SessionDescription) :
    SRDResult :=
  match pcSetRemoteDescription env t.pc sd with
  | .err => ⟨.err, t, []⟩
  | .ok pc1 =>
    let lastState := t.negotiationState
    match drainCandidates env pc1 t.pendingCandidates with
    | (pc2, .err) =>
      ⟨.err, { t with pc := pc2, negotiationState := .negotiationStateNone }, []⟩
    | (pc2, .ok _) =>
      let t2 := { t with
        pc := pc2
        negotiationState := .negotiationStateNone
        pendingCandidates := [] }
      if lastState = .negotiationRetry ∧ sd.sdpType = .answer then
        let r := createAndSendOffer env t2 none
        ⟨.ok (), r.t, r.offers⟩
      else
        ⟨.ok (), t2, []⟩

/-- The `OnICEGatheringStateChange` handler installed by `NewPCTransport`:
on gathering-complete with `restartAfterGathering` set, run the offer path
with `ICERestart = true` (errors are logged and swallowed). -/
def onICEGatheringStateChange (env : PCEnv) (t : PCTransport) (state : ICEGatheringState) :
    PCTransport × List SessionDescription :=
  if state = .complete then
    if t.restartAfterGathering then
      let r := createAndSendOffer env t (some ⟨true⟩)
      (r.t, r.offers)
    else (t, [])
  else (t, [])

/-- The loop of `GetTransceiverForSending` over the transceiver list. -/
def findSendTransceiver (codecMap : List (String × List RTPCodecCapability))
    (track : TrackLocal) (codec : RTPCodecCapability) :
    List RTPTransceiver → Option RTPTransceiver
  | [] => none
  | tr :: rest =>
    if tr.kind ≠ track.kind then findSendTransceiver codecMap track codec rest
    else
      match tr.sender with
      | none => findSendTransceiver codecMap track codec rest
      | some s =>
        if s.track ≠ none then findSendTransceiver codecMap track codec rest
        else if (lookupCodecs codecMap tr.mid).any
            (fun p => p.mimeType == codec.mimeType) then
          some tr
        else findSendTransceiver codecMap track codec rest

/-- `PCTransport.GetTransceiverForSending` (`transport.go`). -/
def GetTransceiverForSending (t : PCTransport) (track : TrackLocal)
    (codec : RTPCodecCapability) : Option RTPTransceiver :=
  findSendTransceiver t.transceiverCodecs track codec t.pc.transceivers

/-- The predicate the specification describes for choosing a sending
transceiver: matching kind, a sender with no track, and a recorded codec for
the transceiver's mid with the desired MIME type.  Written from the spec's
words, for comparison with the loop above. -/
def sendableFor (codecMap : List (String × List RTPCodecCapability))
    (track : TrackLocal) (codec : RTPCodecCapability) (tr : RTPTransceiver) : Bool :=
  tr.kind == track.kind &&
    (match tr.sender with
     | some s => s.track.isNone
     | none => false) &&
    (lookupCodecs codecMap tr.mid).any (fun p => p.mimeType == codec.mimeType)

/-- A fresh peer connection as produced by `newPeerConnection`. -/
def freshPeerConn : PeerConn :=
  { remoteDescription := none
    currentRemoteDescription := none
    connectionState := .new
    iceGatheringState := .new
    appliedCandidates := []
    transceivers := [] }

/-- The transport as constructed by `NewPCTransport` (before `OnOffer`
registers a callback), around a given fresh peer connection. -/
def NewPCTransport (pc : PeerConn) : PCTransport :=
  { pc := pc
    transceiverCodecs := []
    pendingCandidates := []
    onOfferSet := false
    restartAfterGathering := false
    negotiationState := .negotiationStateNone }

/-- `PCTransport.OnOffer`: register the offer callback. -/
def OnOffer (t : PCTransport) : PCTransport := { t with onOfferSet := true }

/-- A signaling-side operation on the transport: submit a remote candidate
or submit a remote description. -/
inductive SignalOp
  | addCand (c : Nat)
  | setRemote (sd : SessionDescription)
deriving DecidableEq, Repr

/-- Apply one signaling operation; an `AddICECandidate` error leaves the
transport unchanged, a `SetRemoteDescription` error leaves it as the method
left it. -/
def applySignalOp (env : PCEnv) (t : PCTransport) : SignalOp → PCTransport
  | .addCand c =>
    match AddICECandidate env t c with
    | .ok t' => t'
    | .err => t
  | .setRemote sd => (SetRemoteDescription env t sd).t

/-- Run a list of signaling operations from a starting transport. -/
def runSignalOps (env : PCEnv) (t : PCTransport) (ops : List SignalOp) : PCTransport :=
  ops.foldl (applySignalOp env) t

/-- The candidates submitted in a list of signaling operations, in order. -/
def candidatesOf (ops : List SignalOp) : List Nat :=
  ops.filterMap (fun op => match op with | .addCand c => some c | .setRemote _ => none)

/-! ## Stream tracker manager (package `sfu`) -/

/-- Status reported by a `StreamTracker`.  Modelled from the spec: the
`StreamTracker` implementation lives outside the given sources; §3 gives
`status ∈ {New, Active, Stopped}`.  The manager only distinguishes `Stopped`
from the rest. -/
inductive StreamStatus
  | new
  | active
  | stopped
deriving DecidableEq, Repr

/-- The `StreamTrackerManager`.  Tracker slots hold optional tracker
identifiers (the `StreamTracker` itself lives outside the given sources; for
the claims here only a slot's occupancy and identity matter), and the Go
fixed-size array indexed by spatial layer is modelled as a total map from
layer to optional tracker.  `onChangedSet` records whether
`OnAvailableLayersChanged` has registered a callback. -/
structure StreamTrackerManager where
  trackers : Int → Option Nat
  availableLayers : List Int
  maxExpectedLayer : Int
  onChangedSet : Bool

/-- Modelled from the spec: `DefaultMaxLayerSpatial` is defined outside the
given sources; §3 gives "a compile-time constant (e.g. 2)".  Only its role
as the initial `maxExpectedLayer` matters here. -/
def DefaultMaxLayerSpatial : Int := 2

/-- `NewStreamTrackerManager`. -/
def NewStreamTrackerManager : StreamTrackerManager :=
  { trackers := fun _ => none
    availableLayers := []
    maxExpectedLayer := DefaultMaxLayerSpatial
    onChangedSet := false }

/-- `OnAvailableLayersChanged`: register the availability callback. -/
def OnAvailableLayersChanged (s : StreamTrackerManager) : StreamTrackerManager :=
  { s with onChangedSet := true }

/-- The `sort.Slice(..., less = (· < ·))` calls of the manager: the ascending
reordering of an integer list (on the duplicate-free lists arising here the
ascending reordering is unique, so a stable insertion sort is extensionally
the Go sort). -/
def sortLayers (l : List Int) : List Int := List.insertionSort (· ≤ ·) l

/-- `hasSpatialLayerLocked`: the membership loop over `availableLayers`. -/
def hasSpatialLayerLocked (s : StreamTrackerManager) (layer : Int) : Bool :=
  s.availableLayers.any (fun l => l == layer)

/-- `addAvailableLayer`: the result is the new manager together with the
payloads delivered to the availability callback during the call. -/
def addAvailableLayer (s : StreamTrackerManager) (layer : Int) :
    StreamTrackerManager × List (List Int) :=
  if s.availableLayers.any (fun l => l == layer) then (s, [])
  else
    let layers := sortLayers (s.availableLayers ++ [layer])
    ({ s with availableLayers := layers },
      if s.onChangedSet then [layers] else [])

/-- `removeAvailableLayer`: filter the layer out, sort, store, and notify the
callback unconditionally (when registered), even when the layer was not
present. -/
def removeAvailableLayer (s : StreamTrackerManager) (layer : Int) :
    StreamTrackerManager × List (List Int) :=
  let newLayers := sortLayers (s.availableLayers.filter (fun l => l != layer))
  ({ s with availableLayers := newLayers },
    if s.onChangedSet then [newLayers] else [])

/-- The status callback wired by `AddTracker` for a layer's tracker:
`Stopped` removes the layer from the available set, any other status adds
it. -/
def handleStatusChange (s : StreamTrackerManager) (layer : Int) (status : StreamStatus) :
    StreamTrackerManager × List (List Int) :=
  if status = .stopped then removeAvailableLayer s layer
  else addAvailableLayer s layer

/-- Run a list of tracker status notifications through the manager. -/
def runStatusChanges (s : StreamTrackerManager) (ops : List (Int × StreamStatus)) :
    StreamTrackerManager :=
  ops.foldl (fun s p => (handleStatusChange s p.1 p.2).fst) s

/-- The most recent status notification for a layer in a list of
notifications, if any. -/
def lastStatusFor (ops : List (Int × StreamStatus)) (layer : Int) : Option StreamStatus :=
  (ops.filter (fun p => p.1 == layer)).getLast?.map (fun p => p.2)

/-- Ascending list of `n` consecutive integers starting at `a`. -/
def intRangeAux (a : Int) : Nat → List Int
  | 0 => []
  | n + 1 => a :: intRangeAux (a + 1) n

/-- Ascending list of the integers from `a` to `b` inclusive: the index
sequence of the Go loop `for l := a; l <= b; l++`. -/
def intRange (a b : Int) : List Int := intRangeAux a (b + 1 - a).toNat

/-- `SetMaxExpectedSpatialLayer`: the result is the new manager together
with the identifiers of the trackers on which `Reset()` is called. -/
def SetMaxExpectedSpatialLayer (s : StreamTrackerManager) (layer : Int) :
    StreamTrackerManager × List Nat :=
  if layer ≤ s.maxExpectedLayer then
    ({ s with maxExpectedLayer := layer }, [])
  else
    let trackersToReset :=
      (intRange (s.maxExpectedLayer + 1) layer).filterMap
        (fun l => if hasSpatialLayerLocked s l then none else s.trackers l)
    ({ s with maxExpectedLayer := layer }, trackersToReset)

/-- `IsReducedQuality`. -/
def IsReducedQuality (s : StreamTrackerManager) : Bool :=
  decide ((s.availableLayers.length : Int) < s.maxExpectedLayer + 1)

/-- `GetAvailableLayers`. -/
def GetAvailableLayers (s : StreamTrackerManager) : List Int :=
  s.availableLayers

/-! ## Concrete fixtures used by the witnesses and counterexamples -/

/-- An environment in which every engine call succeeds; offers carry
payload 7. -/
def envAllOk : PCEnv := ⟨fun _ => true, fun _ => true, true, 7, fun _ => true⟩

/-- An environment in which every engine call succeeds except offer
creation. -/
def envNoOffer : PCEnv := ⟨fun _ => true, fun _ => true, false, 7, fun _ => true⟩

/-- An environment in which every engine call succeeds except setting the
local description. -/
def envNoSLD : PCEnv := ⟨fun _ => true, fun _ => true, true, 7, fun _ => false⟩

/-- An environment rejecting candidate number 2 only. -/
def envBadCand2 : PCEnv :=
  ⟨fun c => !(c == 2), fun _ => true, true, 7, fun _ => true⟩

/-- An idle transport with a registered offer callback. -/
def tIdle : PCTransport := OnOffer (NewPCTransport freshPeerConn)

/-- A transport with a registered offer callback around a closed peer
connection. -/
def tClosed : PCTransport :=
  OnOffer (NewPCTransport { freshPeerConn with connectionState := .closed })

/-- A transport awaiting a client answer while ICE gathering is in progress,
before any remote description has been applied. -/
def tGatherClient : PCTransport :=
  { OnOffer (NewPCTransport { freshPeerConn with iceGatheringState := .gathering }) with
    negotiationState := .negotiationStateClient }

/-- An idle transport whose peer connection is gathering. -/
def tGatherIdle : PCTransport :=
  OnOffer (NewPCTransport { freshPeerConn with iceGatheringState := .gathering })

/-- An idle transport with `restartAfterGathering` pending. -/
def tFlagged : PCTransport := { tIdle with restartAfterGathering := true }

/-- A transport in `negotiationRetry`, with a registered offer callback. -/
def tRetry : PCTransport := { tIdle with negotiationState := .negotiationRetry }

/-- A transport awaiting a client answer, without a current remote
description and with gathering not in progress. -/
def tClientNoRD : PCTransport :=
  { tIdle with negotiationState := .negotiationStateClient }

/-- A transport awaiting a client answer whose current remote description is
an already-applied answer. -/
def tClientAns : PCTransport :=
  { tIdle with
      negotiationState := .negotiationStateClient
      pc := { freshPeerConn with currentRemoteDescription := some ⟨.answer, 5⟩ } }

/-- An opus audio codec capability. -/
def codecOpus : RTPCodecCapability := ⟨"audio/opus"⟩

/-- An audio track. -/
def trackAudio : TrackLocal := ⟨.audio⟩

/-- An audio transceiver with an empty sender and mid "0". -/
def trSendAudio : RTPTransceiver := ⟨.audio, "0", some ⟨none, [codecOpus]⟩⟩

/-- A transport holding one free audio transceiver whose mid has opus
recorded. -/
def tSend : PCTransport :=
  { NewPCTransport { freshPeerConn with transceivers := [trSendAudio] } with
    transceiverCodecs := [("0", [codecOpus])] }

/-- An environment accepting every candidate and local description, only
accepting remote descriptions with payload 4, and producing offers with
payload 7. -/
def envW : PCEnv := ⟨fun _ => true, fun sd => sd.sdp == 4, true, 7, fun _ => true⟩

/-- A signaling trace: buffer candidate 1, fail a remote description, buffer
candidate 2. -/
def opsW : List SignalOp := [.addCand 1, .setRemote ⟨.offer, 9⟩, .addCand 2]

/-- An idle transport with pending candidates 1, 2, 3. -/
def tPend : PCTransport := { tIdle with pendingCandidates := [1, 2, 3] }

/-- A status-notification trace: layers 0 and 1 become active, then layer 1
stops. -/
def opsC7 : List (Int × StreamStatus) := [(0, .active), (1, .active), (1, .stopped)]

/-- A manager with a registered callback and available layers 0 and 2. -/
def mgrTwo : StreamTrackerManager :=
  { OnAvailableLayersChanged NewStreamTrackerManager with availableLayers := [0, 2] }

/-- The manager of spec scenario S3: trackers installed at layers 0 and 1,
layer 0 available, expected maximum layer 0. -/
def mgrS3 : StreamTrackerManager :=
  { NewStreamTrackerManager with
      trackers := fun l => if l = 0 then some 10 else if l = 1 then some 11 else none
      availableLayers := [0]
      maxExpectedLayer := 0 }

/-! ## Theorems -/

/-- C9: while the peer connection is in the Closed state, any negotiation
attempt through `createAndSendOffer`, with any options, is a silent no-op:
it returns success, emits no offer, and leaves the transport — negotiation
state and every other field — unchanged. -/
theorem C9_closed_transport_noop (env : PCEnv) (t : PCTransport)
    (options : Option OfferOptions) (h : t.pc.connectionState = .closed) :
    createAndSendOffer env t options = ⟨.ok (), t, []⟩ := by
  cases hb : t.onOfferSet <;> simp [createAndSendOffer, hb, h]

/-- Witness for C9 at a concrete closed transport and an ICE-restart
request. -/
theorem C9_closed_transport_noop_witness :
    tClosed.pc.connectionState = .closed ∧
      createAndSendOffer envAllOk tClosed (some ⟨true⟩) = ⟨.ok (), tClosed, []⟩ :=
  ⟨rfl, C9_closed_transport_noop envAllOk tClosed (some ⟨true⟩) rfl⟩

theorem findSendTransceiver_eq_find?
    (cm : List (String × List RTPCodecCapability)) (track : TrackLocal)
    (codec : RTPCodecCapability) (l : List RTPTransceiver) :
    findSendTransceiver cm track codec l = l.find? (sendableFor cm track codec) := by
  induction l with
  | nil => rfl
  | cons tr rest ih =>
    by_cases hk : tr.kind = track.kind
    · cases hs : tr.sender with
      | none => simp [findSendTransceiver, List.find?, sendableFor, hk, hs, ih]
      | some s =>
        cases ht : s.track with
        | none =>
          by_cases ha :
              (lookupCodecs cm tr.mid).any (fun p => p.mimeType == codec.mimeType) = true
          · simp [findSendTransceiver, List.find?, sendableFor, hk, hs, ht, ha]
          · simp [findSendTransceiver, List.find?, sendableFor, hk, hs, ht, ha, ih]
        | some tk => simp [findSendTransceiver, List.find?, sendableFor, hk, hs, ht, ih]
    · have hbk : (tr.kind == track.kind) = false := by simpa using hk
      simp [findSendTransceiver, List.find?, sendableFor, hk, hbk, ih]

/-- C5: `GetTransceiverForSending` returns the first transceiver, in the
peer connection's transceiver order, whose kind matches the track, whose
sender exists and carries no track, and whose recorded codec list for its
mid has an entry with the desired MIME type; when no transceiver qualifies
it returns nothing. -/
theorem C5_get_transceiver_for_sending (t : PCTransport) (track : TrackLocal)
    (codec : RTPCodecCapability) :
    GetTransceiverForSending t track codec =
      t.pc.transceivers.find? (sendableFor t.transceiverCodecs track codec) ∧
    ((∀ tr ∈ t.pc.transceivers, sendableFor t.transceiverCodecs track codec tr = false) →
      GetTransceiverForSending t track codec = none) := by
  refine ⟨findSendTransceiver_eq_find? _ _ _ _, fun h => ?_⟩
  rw [GetTransceiverForSending, findSendTransceiver_eq_find?]
  exact List.find?_eq_none.mpr (fun x hx => by simp [h x hx])

/-- Witness for C5 at a transport with one matching transceiver. -/
theorem C5_get_transceiver_for_sending_witness :
    GetTransceiverForSending tSend trackAudio codecOpus = some trSendAudio ∧
    GetTransceiverForSending tSend trackAudio codecOpus =
      tSend.pc.transceivers.find? (sendableFor tSend.transceiverCodecs trackAudio codecOpus) :=
  ⟨by decide, (C5_get_transceiver_for_sending tSend trackAudio codecOpus).1⟩

/-- C10: with a registered availability callback, `removeAvailableLayer`
notifies unconditionally — even for a layer that was not in the available
set, re-delivering the unchanged set — while `addAvailableLayer` on a layer
already present returns without mutating the manager and without
notifying. -/
theorem C10_callback_delivery :
    (∀ s layer, s.onChangedSet = true →
       (removeAvailableLayer s layer).snd =
         [(removeAvailableLayer s layer).fst.availableLayers]) ∧
    (∀ s layer, s.onChangedSet = true → s.availableLayers.Sorted (· ≤ ·) →
       layer ∉ s.availableLayers →
       (removeAvailableLayer s layer).fst.availableLayers = s.availableLayers ∧
       (removeAvailableLayer s layer).snd = [s.availableLayers]) ∧
    (∀ s layer, layer ∈ s.availableLayers → addAvailableLayer s layer = (s, [])) := by
  refine ⟨fun s layer h => by simp [removeAvailableLayer, h], ?_, ?_⟩
  · intro s layer h hs hmem
    have hf : s.availableLayers.filter (fun l => l != layer) = s.availableLayers := by
      refine List.filter_eq_self.mpr (fun a ha => ?_)
      have : a ≠ layer := fun e => hmem (e ▸ ha)
      simpa using this
    have hsort : sortLayers (s.availableLayers.filter (fun l => l != layer)) =
        s.availableLayers := by
      rw [hf]; exact hs.insertionSort_eq
    constructor
    · simp [removeAvailableLayer, hsort]
    · simp [removeAvailableLayer, hsort, h]
  · intro s layer hmem
    have : s.availableLayers.any (fun l => l == layer) = true :=
      List.any_eq_true.mpr ⟨layer, hmem, by simp⟩
    simp [addAvailableLayer, this]

/-- Witness for C10: removing absent layer 1 from available set `[0, 2]`
re-delivers the unchanged set; re-adding present layer 0 is silent. -/
theorem C10_callback_delivery_witness :
    mgrTwo.onChangedSet = true ∧ (1 : Int) ∉ mgrTwo.availableLayers ∧
    mgrTwo.availableLayers.Sorted (· ≤ ·) ∧
    (removeAvailableLayer mgrTwo 1).fst.availableLayers = mgrTwo.availableLayers ∧
    (removeAvailableLayer mgrTwo 1).snd = [mgrTwo.availableLayers] ∧
    addAvailableLayer mgrTwo 0 = (mgrTwo, []) :=
  ⟨rfl, by decide, by decide,
    (C10_callback_delivery.2.1 mgrTwo 1 rfl (by decide) (by decide)).1,
    (C10_callback_delivery.2.1 mgrTwo 1 rfl (by decide) (by decide)).2,
    C10_callback_delivery.2.2 mgrTwo 0 (by decide)⟩

theorem mem_intRangeAux {x a : Int} {n : Nat} :
    x ∈ intRangeAux a n ↔ a ≤ x ∧ x < a + n := by
  induction n generalizing a with
  | zero => simp [intRangeAux]
  | succ m ih =>
    simp only [intRangeAux, List.mem_cons, ih]
    constructor
    · rintro (rfl | ⟨h1, h2⟩) <;> constructor <;> omega
    · rintro ⟨h1, h2⟩
      by_cases hx : x = a
      · exact Or.inl hx
      · exact Or.inr ⟨by omega, by omega⟩

theorem mem_intRange {a b x : Int} : x ∈ intRange a b ↔ a ≤ x ∧ x ≤ b := by
  rw [intRange, mem_intRangeAux]
  omega

/-- C6: `SetMaxExpectedSpatialLayer new` with `new ≤` the current bound only
stores the new bound and resets nothing; with `new >` the bound it stores the
new bound, leaves `availableLayers` and the tracker slots untouched, and the
trackers reset are exactly those of the layers in `(old, new]` that are not
currently available and whose slot is occupied. -/
theorem C6_set_max_expected_spatial_layer :
    (∀ s layer, layer ≤ s.maxExpectedLayer →
       SetMaxExpectedSpatialLayer s layer = ({ s with maxExpectedLayer := layer }, [])) ∧
    (∀ s layer, s.maxExpectedLayer < layer →
       (SetMaxExpectedSpatialLayer s layer).fst = { s with maxExpectedLayer := layer } ∧
       ∀ tk, tk ∈ (SetMaxExpectedSpatialLayer s layer).snd ↔
         ∃ l, s.maxExpectedLayer < l ∧ l ≤ layer ∧
           hasSpatialLayerLocked s l = false ∧ s.trackers l = some tk) := by
  constructor
  · intro s layer h; simp [SetMaxExpectedSpatialLayer, h]
  · intro s layer h
    have h' : ¬ layer ≤ s.maxExpectedLayer := by omega
    refine ⟨by simp [SetMaxExpectedSpatialLayer, h'], fun tk => ?_⟩
    simp only [SetMaxExpectedSpatialLayer, h', if_false, List.mem_filterMap]
    constructor
    · rintro ⟨l, hl, hif⟩
      rw [mem_intRange] at hl
      by_cases hsp : hasSpatialLayerLocked s l = true
      · simp [hsp] at hif
      · refine ⟨l, by omega, by omega, by simpa using hsp, ?_⟩
        simpa [hsp] using hif
    · rintro ⟨l, hl1, hl2, hsp, htr⟩
      exact ⟨l, mem_intRange.mpr ⟨by omega, hl2⟩, by simp [hsp, htr]⟩

/-- Witness for C6 at the scenario-S3 manager: lowering the bound resets
nothing; raising it from 0 to 2 resets exactly tracker 11 (layer 1: absent
from available layers, occupied slot) and stores the new bound. -/
theorem C6_set_max_expected_spatial_layer_witness :
    SetMaxExpectedSpatialLayer mgrS3 0 = ({ mgrS3 with maxExpectedLayer := 0 }, []) ∧
    (SetMaxExpectedSpatialLayer mgrS3 2).fst = { mgrS3 with maxExpectedLayer := 2 } ∧
    (SetMaxExpectedSpatialLayer mgrS3 2).snd = [11] ∧
    (11 ∈ (SetMaxExpectedSpatialLayer mgrS3 2).snd ↔
      ∃ l, mgrS3.maxExpectedLayer < l ∧ l ≤ 2 ∧
        hasSpatialLayerLocked mgrS3 l = false ∧ mgrS3.trackers l = some 11) :=
  ⟨C6_set_max_expected_spatial_layer.1 mgrS3 0 (by decide), by
    exact (C6_set_max_expected_spatial_layer.2 mgrS3 2 (by decide)).1, by decide,
    (C6_set_max_expected_spatial_layer.2 mgrS3 2 (by decide)).2 11⟩

theorem finishOffer_err (env : PCEnv) (t : PCTransport)
    (h : (finishOffer env t).res = .err) :
    (finishOffer env t).t = t ∧ (finishOffer env t).offers = [] := by
  unfold finishOffer at h ⊢
  cases hco : pcCreateOffer env with
  | err => simp [hco]
  | ok offer =>
    cases hsl : pcSetLocalDescription env t.pc offer with
    | err => simp [hco, hsl]
    | ok pc' => simp [hco, hsl] at h

theorem finishOffer_flag (env : PCEnv) (t : PCTransport)
    (h : (finishOffer env t).offers ≠ []) :
    (finishOffer env t).t.restartAfterGathering = false := by
  unfold finishOffer at h ⊢
  cases hco : pcCreateOffer env with
  | err => simp [hco] at h
  | ok offer =>
    cases hsl : pcSetLocalDescription env t.pc offer with
    | err => simp [hco, hsl] at h
    | ok pc' => simp [hco, hsl]

/-- C8: whenever `createAndSendOffer` returns an error — in particular when
`CreateOffer` or `SetLocalDescription` fails — no offer is emitted, the
negotiation state keeps its prior value, and `restartAfterGathering` is not
cleared; and from an idle transport a `CreateOffer` failure, or a
`SetLocalDescription` failure, is indeed returned as an error. -/
theorem C8_offer_failure_preserves_state :
    (∀ env t options, (createAndSendOffer env t options).res = .err →
       (createAndSendOffer env t options).t.negotiationState = t.negotiationState ∧
       (createAndSendOffer env t options).t.restartAfterGathering =
         t.restartAfterGathering ∧
       (createAndSendOffer env t options).offers = []) ∧
    (∀ env t, t.onOfferSet = true → t.pc.connectionState ≠ .closed →
       t.negotiationState = .negotiationStateNone → env.createOfferOk = false →
       (createAndSendOffer env t none).res = .err) ∧
    (∀ env t, t.onOfferSet = true → t.pc.connectionState ≠ .closed →
       t.negotiationState = .negotiationStateNone → env.createOfferOk = true →
       env.setLocalOk ⟨.offer, env.offerSdp⟩ = false →
       (createAndSendOffer env t none).res = .err) := by
  refine ⟨?_, ?_, ?_⟩
  · intro env t options h
    unfold createAndSendOffer at h ⊢
    by_cases h1 : t.onOfferSet = false
    · simp [h1] at h
    · by_cases h2 : t.pc.connectionState = .closed
      · simp [h1, h2] at h
      · by_cases h3 : optICERestart options = true ∧ t.pc.iceGatheringState = .gathering
        · simp [h1, h2, h3] at h
        · by_cases h4 : t.negotiationState = .negotiationStateClient
          · cases hc : t.pc.currentRemoteDescription with
            | none => simp [h1, h2, h3, h4, hc] at h
            | some csd =>
              by_cases h5 : optICERestart options = true
              · have hg : t.pc.iceGatheringState ≠ .gathering := fun hb => h3 ⟨h5, hb⟩
                cases hsr : pcSetRemoteDescription env t.pc csd with
                | err => simp [h1, h2, hg, h4, hc, h5, hsr] at h ⊢
                | ok pc' =>
                  simp [h1, h2, hg, h4, hc, h5, hsr] at h
                  obtain ⟨he1, he2⟩ := finishOffer_err _ _ h
                  simp [h1, h2, hg, h4, hc, h5, hsr, he1, he2]
              · simp [h1, h2, h3, h4, hc, h5] at h
          · by_cases h6 : t.negotiationState = .negotiationRetry
            · simp [h1, h2, h3, h4, h6] at h
            · simp [h1, h2, h3, h4, h6] at h
              obtain ⟨he1, he2⟩ := finishOffer_err _ _ h
              simp [h1, h2, h3, h4, h6, he1, he2]
  · intro env t h1 h2 h3 h4
    simp [createAndSendOffer, h1, h2, h3, optICERestart, finishOffer, pcCreateOffer, h4]
  · intro env t h1 h2 h3 h4 h5
    simp [createAndSendOffer, h1, h2, h3, optICERestart, finishOffer, pcCreateOffer, h4,
      pcSetLocalDescription, h5]

/-- Witness for C8: with an idle transport, a failing `CreateOffer` (and,
separately, a failing `SetLocalDescription`) yields an error while the
negotiation state and the restart flag are preserved and no offer is
emitted. -/
theorem C8_offer_failure_preserves_state_witness :
    (createAndSendOffer envNoOffer tIdle none).res = .err ∧
    (createAndSendOffer envNoOffer tIdle none).t.negotiationState =
      tIdle.negotiationState ∧
    (createAndSendOffer envNoOffer tIdle none).t.restartAfterGathering =
      tIdle.restartAfterGathering ∧
    (createAndSendOffer envNoOffer tIdle none).offers = [] ∧
    (createAndSendOffer envNoSLD tIdle none).res = .err := by
  have h2 := C8_offer_failure_preserves_state.2.1 envNoOffer tIdle rfl (by decide) rfl rfl
  have h1 := C8_offer_failure_preserves_state.1 envNoOffer tIdle none h2
  have h3 := C8_offer_failure_preserves_state.2.2 envNoSLD tIdle rfl (by decide) rfl rfl rfl
  exact ⟨h2, h1.1, h1.2.1, h1.2.2, h3⟩

/-- C4: an ICE-restart offer requested while ICE gathering is in progress
emits nothing and records `restartAfterGathering`; the gathering-complete
handler with the flag pending invokes the offer path with ICE restart; and
every offer-emitting call clears the flag. -/
theorem C4_ice_restart_after_gathering :
    (∀ env t options, t.onOfferSet = true → t.pc.connectionState ≠ .closed →
       optICERestart options = true → t.pc.iceGatheringState = .gathering →
       createAndSendOffer env t options =
         ⟨.ok (), { t with restartAfterGathering := true }, []⟩) ∧
    (∀ env t, t.restartAfterGathering = true →
       onICEGatheringStateChange env t .complete =
         ((createAndSendOffer env t (some ⟨true⟩)).t,
          (createAndSendOffer env t (some ⟨true⟩)).offers)) ∧
    (∀ env t options, (createAndSendOffer env t options).offers ≠ [] →
       (createAndSendOffer env t options).t.restartAfterGathering = false) := by
  refine ⟨?_, ?_, ?_⟩
  · intro env t options h1 h2 h3 h4
    simp [createAndSendOffer, h1, h2, h3, h4]
  · intro env t h
    simp [onICEGatheringStateChange, h]
  · intro env t options h
    unfold createAndSendOffer at h ⊢
    by_cases h1 : t.onOfferSet = false
    · simp [h1] at h
    · by_cases h2 : t.pc.connectionState = .closed
      · simp [h1, h2] at h
      · by_cases h3 : optICERestart options = true ∧ t.pc.iceGatheringState = .gathering
        · simp [h1, h2, h3] at h
        · by_cases h4 : t.negotiationState = .negotiationStateClient
          · cases hc : t.pc.currentRemoteDescription with
            | none => simp [h1, h2, h3, h4, hc] at h
            | some csd =>
              by_cases h5 : optICERestart options = true
              · have hg : t.pc.iceGatheringState ≠ .gathering := fun hb => h3 ⟨h5, hb⟩
                cases hsr : pcSetRemoteDescription env t.pc csd with
                | err => simp [h1, h2, hg, h4, hc, h5, hsr] at h
                | ok pc' =>
                  simp [h1, h2, hg, h4, hc, h5, hsr] at h
                  have hflag := finishOffer_flag _ _ h
                  simp [h1, h2, hg, h4, hc, h5, hsr, hflag]
              · simp [h1, h2, h3, h4, hc, h5] at h
          · by_cases h6 : t.negotiationState = .negotiationRetry
            · simp [h1, h2, h3, h4, h6] at h
            · simp [h1, h2, h3, h4, h6] at h
              have hflag := finishOffer_flag _ _ h
              simp [h1, h2, h3, h4, h6, hflag]

/-- Witness for C4 at concrete transports: deferral while gathering, the
handler resuming the restart, and flag clearing on a successful offer. -/
theorem C4_ice_restart_after_gathering_witness :
    createAndSendOffer envAllOk tGatherIdle (some ⟨true⟩) =
      ⟨.ok (), { tGatherIdle with restartAfterGathering := true }, []⟩ ∧
    onICEGatheringStateChange envAllOk tFlagged .complete =
      ((createAndSendOffer envAllOk tFlagged (some ⟨true⟩)).t,
       (createAndSendOffer envAllOk tFlagged (some ⟨true⟩)).offers) ∧
    (createAndSendOffer envAllOk tIdle none).offers ≠ [] ∧
    (createAndSendOffer envAllOk tIdle none).t.restartAfterGathering = false :=
  ⟨C4_ice_restart_after_gathering.1 envAllOk tGatherIdle (some ⟨true⟩) rfl (by decide)
      rfl rfl,
    C4_ice_restart_after_gathering.2.1 envAllOk tFlagged rfl, by decide,
    C4_ice_restart_after_gathering.2.2 envAllOk tIdle none (by decide)⟩

theorem drainCandidates_allOk (env : PCEnv) (pc : PeerConn) (l : List Nat)
    (h : ∀ c ∈ l, env.addOk c = true) :
    drainCandidates env pc l =
      ({ pc with appliedCandidates := pc.appliedCandidates ++ l }, .ok ()) := by
  induction l generalizing pc with
  | nil => simp [drainCandidates]
  | cons c rest ih =>
    have hc : env.addOk c = true := h c (by simp)
    have hrest : ∀ x ∈ rest, env.addOk x = true := fun x hx => h x (by simp [hx])
    simp [drainCandidates, pcAddICECandidate, hc, ih _ hrest]

theorem drainCandidates_failAt (env : PCEnv) (pc : PeerConn) (p₁ : List Nat) (c : Nat)
    (p₂ : List Nat) (h1 : ∀ x ∈ p₁, env.addOk x = true) (hc : env.addOk c = false) :
    drainCandidates env pc (p₁ ++ c :: p₂) =
      ({ pc with appliedCandidates := pc.appliedCandidates ++ p₁ }, .err) := by
  induction p₁ generalizing pc with
  | nil => simp [drainCandidates, pcAddICECandidate, hc]
  | cons a rest ih =>
    have ha : env.addOk a = true := h1 a (by simp)
    have hrest : ∀ x ∈ rest, env.addOk x = true := fun x hx => h1 x (by simp [hx])
    simp [drainCandidates, pcAddICECandidate, ha, ih _ hrest]

/-- C2: when `SetRemoteDescription` succeeds on an answer and the prior
negotiation state was `negotiationRetry`, a fresh offer is created before
the call returns — the state is first reset (a failed follow-up offer
leaves it at `negotiationStateNone`) and on offer success exactly one offer
is emitted and the state ends `negotiationStateClient`; when the prior
state was not `negotiationRetry` or the description is not an answer, the
call emits no offer. -/
theorem C2_retry_renegotiation :
    (∀ env t sd, t.negotiationState = .negotiationRetry → sd.sdpType = .answer →
       env.srdOk sd = true → (∀ c ∈ t.pendingCandidates, env.addOk c = true) →
       t.onOfferSet = true → t.pc.connectionState ≠ .closed →
       env.createOfferOk = true → env.setLocalOk ⟨.offer, env.offerSdp⟩ = true →
       (SetRemoteDescription env t sd).res = .ok () ∧
       (SetRemoteDescription env t sd).offers = [⟨.offer, env.offerSdp⟩] ∧
       (SetRemoteDescription env t sd).t.negotiationState = .negotiationStateClient) ∧
    (∀ env t sd, t.negotiationState = .negotiationRetry → sd.sdpType = .answer →
       env.srdOk sd = true → (∀ c ∈ t.pendingCandidates, env.addOk c = true) →
       env.createOfferOk = false →
       (SetRemoteDescription env t sd).res = .ok () ∧
       (SetRemoteDescription env t sd).offers = [] ∧
       (SetRemoteDescription env t sd).t.negotiationState = .negotiationStateNone) ∧
    (∀ env t sd, t.negotiationState ≠ .negotiationRetry ∨ sd.sdpType ≠ .answer →
       (SetRemoteDescription env t sd).offers = []) := by
  refine ⟨?_, ?_, ?_⟩
  · intro env t sd h1 h2 h3 h4 h5 h6 h7 h8
    have hdrain := fun pc => drainCandidates_allOk env pc t.pendingCandidates h4
    simp [SetRemoteDescription, pcSetRemoteDescription, h3, hdrain, h1, h2,
      createAndSendOffer, h5, h6, optICERestart, finishOffer, pcCreateOffer, h7,
      pcSetLocalDescription, h8]
  · intro env t sd h1 h2 h3 h4 h7
    have hdrain := fun pc => drainCandidates_allOk env pc t.pendingCandidates h4
    by_cases h5 : t.onOfferSet = false
    · simp [SetRemoteDescription, pcSetRemoteDescription, h3, hdrain, h1, h2,
        createAndSendOffer, h5]
    · by_cases h6 : t.pc.connectionState = .closed
      · simp [SetRemoteDescription, pcSetRemoteDescription, h3, hdrain, h1, h2,
          createAndSendOffer, h5, h6]
      · simp [SetRemoteDescription, pcSetRemoteDescription, h3, hdrain, h1, h2,
          createAndSendOffer, h5, h6, optICERestart, finishOffer, pcCreateOffer, h7]
  · intro env t sd hne
    unfold SetRemoteDescription
    cases hsr : pcSetRemoteDescription env t.pc sd with
    | err => simp
    | ok pc1 =>
      cases hdr : drainCandidates env pc1 t.pendingCandidates with
      | mk pc2 r =>
        cases r with
        | err => simp [hdr]
        | ok u =>
          have hno : ¬(t.negotiationState = .negotiationRetry ∧ sd.sdpType = .answer) := by
            rcases hne with h | h <;> simp [h]
          simp [hdr, hno]

/-- Witness for C2: from `negotiationRetry`, an all-success answer produces
one fresh offer and ends awaiting the client; with offer creation failing
the call still succeeds with no offer and state reset; an answer from idle
state, and a retry-state call on a non-answer, emit nothing. -/
theorem C2_retry_renegotiation_witness :
    (SetRemoteDescription envAllOk tRetry ⟨.answer, 5⟩).res = .ok () ∧
    (SetRemoteDescription envAllOk tRetry ⟨.answer, 5⟩).offers = [⟨.offer, 7⟩] ∧
    (SetRemoteDescription envAllOk tRetry ⟨.answer, 5⟩).t.negotiationState =
      .negotiationStateClient ∧
    (SetRemoteDescription envNoOffer tRetry ⟨.answer, 5⟩).res = .ok () ∧
    (SetRemoteDescription envNoOffer tRetry ⟨.answer, 5⟩).offers = [] ∧
    (SetRemoteDescription envNoOffer tRetry ⟨.answer, 5⟩).t.negotiationState =
      .negotiationStateNone ∧
    (SetRemoteDescription envAllOk tIdle ⟨.answer, 5⟩).offers = [] ∧
    (SetRemoteDescription envAllOk tRetry ⟨.offer, 5⟩).offers = [] := by
  have ha := C2_retry_renegotiation.1 envAllOk tRetry ⟨.answer, 5⟩ rfl rfl rfl
    (by simp [tRetry, tIdle, NewPCTransport, OnOffer]) rfl (by decide) rfl rfl
  have hb := C2_retry_renegotiation.2.1 envNoOffer tRetry ⟨.answer, 5⟩ rfl rfl rfl
    (by simp [tRetry, tIdle, NewPCTransport, OnOffer]) rfl
  have hc := C2_retry_renegotiation.2.2 envAllOk tIdle ⟨.answer, 5⟩ (Or.inl (by decide))
  have hd := C2_retry_renegotiation.2.2 envAllOk tRetry ⟨.offer, 5⟩ (Or.inr (by decide))
  exact ⟨ha.1, ha.2.1, ha.2.2, hb.1, hb.2.1, hb.2.2, hc, hd⟩

/-- C3, amended: an offer emitted while `negotiationStateClient` implies the
ICE-restart override (restart requested with a current remote description);
with a callback registered, the connection not closed and the request not an
ICE restart during in-progress gathering, a non-override request in
`negotiationStateClient` emits nothing and demotes the state to
`negotiationRetry`; and in `negotiationRetry` a request that is not an ICE
restart during gathering is skipped with the transport unchanged. -/
theorem C3_awaiting_client_offer_gate :
    (∀ env t options, t.negotiationState = .negotiationStateClient →
       (createAndSendOffer env t options).offers ≠ [] →
       optICERestart options = true ∧ t.pc.currentRemoteDescription ≠ none) ∧
    (∀ env t options, t.onOfferSet = true → t.pc.connectionState ≠ .closed →
       ¬(optICERestart options = true ∧ t.pc.iceGatheringState = .gathering) →
       t.negotiationState = .negotiationStateClient →
       ¬(optICERestart options = true ∧ t.pc.currentRemoteDescription ≠ none) →
       createAndSendOffer env t options =
         ⟨.ok (), { t with negotiationState := .negotiationRetry }, []⟩) ∧
    (∀ env t options, t.negotiationState = .negotiationRetry →
       ¬(optICERestart options = true ∧ t.pc.iceGatheringState = .gathering) →
       createAndSendOffer env t options = ⟨.ok (), t, []⟩) := by
  refine ⟨?_, ?_, ?_⟩
  · intro env t options hclient h
    unfold createAndSendOffer at h
    by_cases h1 : t.onOfferSet = false
    · simp [h1] at h
    · by_cases h2 : t.pc.connectionState = .closed
      · simp [h1, h2] at h
      · by_cases h3 : optICERestart options = true ∧ t.pc.iceGatheringState = .gathering
        · simp [h1, h2, h3] at h
        · cases hc : t.pc.currentRemoteDescription with
          | none => simp [h1, h2, h3, hclient, hc] at h
          | some csd =>
            by_cases h5 : optICERestart options = true
            · exact ⟨h5, by simp [hc]⟩
            · simp [h1, h2, h3, hclient, hc, h5] at h
  · intro env t options h1 h2 h3 hclient h5
    cases hc : t.pc.currentRemoteDescription with
    | none => simp [createAndSendOffer, h1, h2, h3, hclient, hc]
    | some csd =>
      have hir : optICERestart options = false := by
        by_cases hi : optICERestart options = true
        · exact absurd ⟨hi, by simp [hc]⟩ h5
        · simpa using hi
      simp [createAndSendOffer, h1, h2, hclient, hc, hir]
  · intro env t options hretry h3
    by_cases h1 : t.onOfferSet = false
    · simp [createAndSendOffer, h1]
    · by_cases h2 : t.pc.connectionState = .closed
      · simp [createAndSendOffer, h1, h2]
      · simp [createAndSendOffer, h1, h2, h3, hretry]

/-- Counterexample to C3 as stated: while `negotiationStateClient` with no
current remote description, an ICE-restart request during in-progress
gathering emits no offer but does NOT demote the state to
`negotiationRetry`: it only records `restartAfterGathering`, and the state
stays `negotiationStateClient`. -/
theorem C3_awaiting_client_counterexample :
    tGatherClient.negotiationState = .negotiationStateClient ∧
    tGatherClient.pc.currentRemoteDescription = none ∧
    (createAndSendOffer envAllOk tGatherClient (some ⟨true⟩)).offers = [] ∧
    (createAndSendOffer envAllOk tGatherClient (some ⟨true⟩)).t.negotiationState ≠
      .negotiationRetry ∧
    (createAndSendOffer envAllOk tGatherClient (some ⟨true⟩)).t.negotiationState =
      .negotiationStateClient ∧
    (createAndSendOffer envAllOk tGatherClient (some ⟨true⟩)).t.restartAfterGathering =
      true := by
  decide

/-- Witness for the amended C3 at concrete transports. -/
theorem C3_awaiting_client_offer_gate_witness :
    ((createAndSendOffer envAllOk tClientAns (some ⟨true⟩)).offers ≠ [] ∧
      optICERestart (some ⟨true⟩) = true ∧
      tClientAns.pc.currentRemoteDescription ≠ none) ∧
    createAndSendOffer envAllOk tClientNoRD none =
      ⟨.ok (), { tClientNoRD with negotiationState := .negotiationRetry }, []⟩ ∧
    createAndSendOffer envAllOk tRetry none = ⟨.ok (), tRetry, []⟩ :=
  ⟨⟨by decide,
      C3_awaiting_client_offer_gate.1 envAllOk tClientAns (some ⟨true⟩) rfl (by decide)⟩,
    C3_awaiting_client_offer_gate.2.1 envAllOk tClientNoRD none rfl (by decide)
      (by decide) rfl (by decide),
    C3_awaiting_client_offer_gate.2.2 envAllOk tRetry none rfl (by decide)⟩

theorem mem_candidatesOf {c : Nat} {ops : List SignalOp} :
    c ∈ candidatesOf ops ↔ SignalOp.addCand c ∈ ops := by
  induction ops with
  | nil => simp [candidatesOf]
  | cons op rest ih =>
    cases op with
    | addCand d =>
      have hcd : candidatesOf (SignalOp.addCand d :: rest) = d :: candidatesOf rest := by
        simp [candidatesOf, List.filterMap_cons]
      rw [hcd]
      simp [List.mem_cons, ih]
    | setRemote sd =>
      have hcd : candidatesOf (SignalOp.setRemote sd :: rest) = candidatesOf rest := by
        simp [candidatesOf, List.filterMap_cons]
      rw [hcd]
      simp [ih]

theorem runSignalOps_buffering (env : PCEnv) (ops : List SignalOp) (t : PCTransport)
    (hrd : t.pc.remoteDescription = none)
    (hsrd : ∀ sd, SignalOp.setRemote sd ∈ ops → env.srdOk sd = false) :
    runSignalOps env t ops =
      { t with pendingCandidates := t.pendingCandidates ++ candidatesOf ops } := by
  induction ops generalizing t with
  | nil => simp [runSignalOps, candidatesOf]
  | cons op rest ih =>
    cases op with
    | addCand c =>
      have hstep : applySignalOp env t (.addCand c) =
          { t with pendingCandidates := t.pendingCandidates ++ [c] } := by
        simp [applySignalOp, AddICECandidate, hrd]
      have hrest : ∀ sd, SignalOp.setRemote sd ∈ rest → env.srdOk sd = false :=
        fun sd hm => hsrd sd (by simp [hm])
      calc runSignalOps env t (.addCand c :: rest)
          = runSignalOps env (applySignalOp env t (.addCand c)) rest := rfl
        _ = { t with pendingCandidates :=
                t.pendingCandidates ++ candidatesOf (.addCand c :: rest) } := by
            rw [hstep,
              ih { t with pendingCandidates := t.pendingCandidates ++ [c] } hrd hrest]
            simp [candidatesOf, List.filterMap_cons]
    | setRemote sd =>
      have hs : env.srdOk sd = false := hsrd sd (by simp)
      have hstep : applySignalOp env t (.setRemote sd) = t := by
        simp [applySignalOp, SetRemoteDescription, pcSetRemoteDescription, hs]
      have hrest : ∀ sd', SignalOp.setRemote sd' ∈ rest → env.srdOk sd' = false :=
        fun sd' hm => hsrd sd' (by simp [hm])
      calc runSignalOps env t (.setRemote sd :: rest)
          = runSignalOps env (applySignalOp env t (.setRemote sd)) rest := rfl
        _ = { t with pendingCandidates :=
                t.pendingCandidates ++ candidatesOf (.setRemote sd :: rest) } := by
            rw [hstep, ih t hrd hrest]
            simp [candidatesOf, List.filterMap_cons]

/-- C1: a candidate submitted while no remote description is set is buffered
(success, peer connection untouched); running any interleaving of buffered
submissions and failing `SetRemoteDescription` calls from a fresh transport
and then a successful `SetRemoteDescription` applies exactly the submitted
candidates, in submission order, and clears the queue; and a failing
candidate during the drain aborts it — the error is returned, the prefix
before the failure is the only part applied and the rest is not attempted. -/
theorem C1_candidate_buffering_and_drain :
    (∀ env t c, t.pc.remoteDescription = none →
       AddICECandidate env t c =
         .ok { t with pendingCandidates := t.pendingCandidates ++ [c] }) ∧
    (∀ env ops sd, (∀ c, SignalOp.addCand c ∈ ops → env.addOk c = true) →
       (∀ sd', SignalOp.setRemote sd' ∈ ops → env.srdOk sd' = false) →
       env.srdOk sd = true →
       (SetRemoteDescription env
           (runSignalOps env (NewPCTransport freshPeerConn) ops) sd).res = .ok () ∧
       (SetRemoteDescription env
           (runSignalOps env (NewPCTransport freshPeerConn) ops) sd).t.pc.appliedCandidates
         = candidatesOf ops ∧
       (SetRemoteDescription env
           (runSignalOps env (NewPCTransport freshPeerConn) ops) sd).t.pendingCandidates
         = []) ∧
    (∀ env t sd p₁ c p₂, t.pendingCandidates = p₁ ++ c :: p₂ →
       (∀ x ∈ p₁, env.addOk x = true) → env.addOk c = false → env.srdOk sd = true →
       (SetRemoteDescription env t sd).res = .err ∧
       (SetRemoteDescription env t sd).t.pc.appliedCandidates =
         t.pc.appliedCandidates ++ p₁ ∧
       (SetRemoteDescription env t sd).t.pendingCandidates = t.pendingCandidates) := by
  refine ⟨?_, ?_, ?_⟩
  · intro env t c hrd
    simp [AddICECandidate, hrd]
  · intro env ops sd hadd hsrd hsd
    have hrun := runSignalOps_buffering env ops (NewPCTransport freshPeerConn) rfl hsrd
    rw [hrun]
    have hall : ∀ c ∈ candidatesOf ops, env.addOk c = true :=
      fun c hc => hadd c (mem_candidatesOf.mp hc)
    have hdrain := fun pc => drainCandidates_allOk env pc (candidatesOf ops) hall
    simp [SetRemoteDescription, pcSetRemoteDescription, hsd, hdrain,
      NewPCTransport, freshPeerConn]
  · intro env t sd p₁ c p₂ hp h1 hc hsd
    have hdrain := fun pc => drainCandidates_failAt env pc p₁ c p₂ h1 hc
    simp [SetRemoteDescription, pcSetRemoteDescription, hsd, hp, hdrain]

/-- Witness for C1: buffering a candidate; a trace with two buffered
candidates around one rejected remote description, drained exactly once in
order by the first successful `SetRemoteDescription`; and a drain aborted at
rejected candidate 2 with only candidate 1 applied and the queue kept. -/
theorem C1_candidate_buffering_and_drain_witness :
    AddICECandidate envW tIdle 3 = .ok { tIdle with pendingCandidates := [3] } ∧
    (SetRemoteDescription envW
        (runSignalOps envW (NewPCTransport freshPeerConn) opsW) ⟨.offer, 4⟩).res
      = .ok () ∧
    (SetRemoteDescription envW
        (runSignalOps envW (NewPCTransport freshPeerConn) opsW)
        ⟨.offer, 4⟩).t.pc.appliedCandidates = [1, 2] ∧
    (SetRemoteDescription envW
        (runSignalOps envW (NewPCTransport freshPeerConn) opsW)
        ⟨.offer, 4⟩).t.pendingCandidates = [] ∧
    (SetRemoteDescription envBadCand2 tPend ⟨.offer, 4⟩).res = .err ∧
    (SetRemoteDescription envBadCand2 tPend ⟨.offer, 4⟩).t.pc.appliedCandidates = [1] ∧
    (SetRemoteDescription envBadCand2 tPend ⟨.offer, 4⟩).t.pendingCandidates =
      [1, 2, 3] := by
  have ha := C1_candidate_buffering_and_drain.1 envW tIdle 3 rfl
  have hb := C1_candidate_buffering_and_drain.2.1 envW opsW ⟨.offer, 4⟩
    (fun c _ => rfl)
    (by intro sd' h; simp [opsW] at h; subst h; rfl) rfl
  have hcx := C1_candidate_buffering_and_drain.2.2 envBadCand2 tPend ⟨.offer, 4⟩
    [1] 2 [3] rfl (by decide) rfl rfl
  refine ⟨ha, hb.1, ?_, hb.2.2, hcx.1, ?_, ?_⟩
  · rw [hb.2.1]; rfl
  · rw [hcx.2.1]; rfl
  · rw [hcx.2.2]; rfl

theorem sortLayers_sorted (l : List Int) : (sortLayers l).Sorted (· ≤ ·) :=
  List.sorted_insertionSort _ l

theorem mem_sortLayers {x : Int} {l : List Int} : x ∈ sortLayers l ↔ x ∈ l :=
  List.mem_insertionSort _

theorem sortLayers_nodup {l : List Int} (h : l.Nodup) : (sortLayers l).Nodup :=
  ((List.perm_insertionSort _ l).nodup_iff).mpr h

theorem sorted_lt_of_le_nodup {l : List Int} (hs : l.Sorted (· ≤ ·)) (hn : l.Nodup) :
    l.Sorted (· < ·) :=
  (List.Pairwise.and hs hn).imp (fun hab => lt_of_le_of_ne hab.1 hab.2)

theorem addAvailableLayer_availableLayers (s : StreamTrackerManager) (layer : Int)
    (hs : s.availableLayers.Sorted (· < ·)) :
    ((addAvailableLayer s layer).fst.availableLayers.Sorted (· < ·)) ∧
    (∀ l, l ∈ (addAvailableLayer s layer).fst.availableLayers ↔
       (l ∈ s.availableLayers ∨ l = layer)) := by
  by_cases hmem : s.availableLayers.any (fun l => l == layer) = true
  · have hin : layer ∈ s.availableLayers := by
      obtain ⟨x, hx, he⟩ := List.any_eq_true.mp hmem
      exact (beq_iff_eq.mp he) ▸ hx
    refine ⟨by simp [addAvailableLayer, hmem, hs], fun l => ?_⟩
    simp only [addAvailableLayer, hmem, if_true]
    constructor
    · exact fun h => Or.inl h
    · rintro (h | rfl)
      · exact h
      · exact hin
  · have hout : layer ∉ s.availableLayers := by
      intro hin
      exact hmem (List.any_eq_true.mpr ⟨layer, hin, by simp⟩)
    have hnd : (s.availableLayers ++ [layer]).Nodup := by
      simp [List.nodup_append, hs.nodup, hout]
    have hsorted : (sortLayers (s.availableLayers ++ [layer])).Sorted (· < ·) :=
      sorted_lt_of_le_nodup (sortLayers_sorted _) (sortLayers_nodup hnd)
    refine ⟨by simp [addAvailableLayer, hmem, hsorted], fun l => ?_⟩
    simp [addAvailableLayer, hmem, mem_sortLayers]

theorem removeAvailableLayer_availableLayers (s : StreamTrackerManager) (layer : Int)
    (hs : s.availableLayers.Sorted (· < ·)) :
    ((removeAvailableLayer s layer).fst.availableLayers.Sorted (· < ·)) ∧
    (∀ l, l ∈ (removeAvailableLayer s layer).fst.availableLayers ↔
       (l ∈ s.availableLayers ∧ l ≠ layer)) := by
  have hf : (s.availableLayers.filter (fun l => l != layer)).Sorted (· < ·) :=
    List.Pairwise.sublist (List.filter_sublist _) hs
  have hid : sortLayers (s.availableLayers.filter (fun l => l != layer)) =
      s.availableLayers.filter (fun l => l != layer) :=
    List.Sorted.insertionSort_eq (hf.imp le_of_lt)
  refine ⟨by simp [removeAvailableLayer, hid, hf], fun l => ?_⟩
  simp [removeAvailableLayer, hid, List.mem_filter]

theorem lastStatusFor_append_single (ops : List (Int × StreamStatus))
    (p : Int × StreamStatus) (l : Int) :
    lastStatusFor (ops ++ [p]) l =
      if p.1 = l then some p.2 else lastStatusFor ops l := by
  by_cases h : p.1 = l
  · simp [lastStatusFor, List.filter_append, h, List.getLast?_concat]
  · simp [lastStatusFor, List.filter_append, h]

/-- C7: after any sequence of tracker status notifications driving
`addAvailableLayer` and `removeAvailableLayer` from an initially empty
available set, the available-layer list is strictly sorted ascending with no
duplicates and holds exactly the layers whose most recent notification was
not `Stopped`; and `IsReducedQuality` holds exactly when the number of
available layers is below `maxExpectedLayer + 1`. -/
theorem C7_available_layers_invariant (ops : List (Int × StreamStatus))
    (s₀ : StreamTrackerManager) (h0 : s₀.availableLayers = []) :
    ((runStatusChanges s₀ ops).availableLayers.Sorted (· < ·)) ∧
    (runStatusChanges s₀ ops).availableLayers.Nodup ∧
    (∀ l, l ∈ (runStatusChanges s₀ ops).availableLayers ↔
       (∃ st, lastStatusFor ops l = some st ∧ st ≠ .stopped)) ∧
    (IsReducedQuality (runStatusChanges s₀ ops) = true ↔
       ((runStatusChanges s₀ ops).availableLayers.length : Int) <
         (runStatusChanges s₀ ops).maxExpectedLayer + 1) := by
  have main : ((runStatusChanges s₀ ops).availableLayers.Sorted (· < ·)) ∧
      (∀ l, l ∈ (runStatusChanges s₀ ops).availableLayers ↔
        (∃ st, lastStatusFor ops l = some st ∧ st ≠ .stopped)) := by
    induction ops using List.reverseRecOn with
    | nil => simp [runStatusChanges, h0, lastStatusFor]
    | append_singleton ops p ih =>
      obtain ⟨ihs, ihm⟩ := ih
      obtain ⟨l0, st⟩ := p
      have hstep : runStatusChanges s₀ (ops ++ [(l0, st)]) =
          (handleStatusChange (runStatusChanges s₀ ops) l0 st).fst := by
        simp [runStatusChanges, List.foldl_append]
      by_cases hstop : st = .stopped
      · subst hstop
        have hrem :=
          removeAvailableLayer_availableLayers (runStatusChanges s₀ ops) l0 ihs
        have hh : handleStatusChange (runStatusChanges s₀ ops) l0 .stopped =
            removeAvailableLayer (runStatusChanges s₀ ops) l0 := by
          simp [handleStatusChange]
        rw [hstep, hh]
        refine ⟨hrem.1, fun l => ?_⟩
        rw [hrem.2 l, ihm l, lastStatusFor_append_single]
        by_cases he : l0 = l
        · subst he; simp
        · have hne : l ≠ l0 := fun e => he e.symm
          simp [he, hne]
      · have hadd :=
          addAvailableLayer_availableLayers (runStatusChanges s₀ ops) l0 ihs
        have hh : handleStatusChange (runStatusChanges s₀ ops) l0 st =
            addAvailableLayer (runStatusChanges s₀ ops) l0 := by
          simp [handleStatusChange, hstop]
        rw [hstep, hh]
        refine ⟨hadd.1, fun l => ?_⟩
        rw [hadd.2 l, ihm l, lastStatusFor_append_single]
        by_cases he : l0 = l
        · subst he; simp [hstop]
        · have hne : ¬ l = l0 := fun e => he e.symm
          simp [he, hne]
  exact ⟨main.1, main.1.nodup, main.2, by simp [IsReducedQuality]⟩

/-- Witness for C7 on the trace where layers 0 and 1 activate and layer 1
then stops: the available set is exactly `[0]`, strictly sorted, matching
the last notifications, and quality is reduced for the default expected
maximum. -/
theorem C7_available_layers_invariant_witness :
    NewStreamTrackerManager.availableLayers = [] ∧
    (runStatusChanges NewStreamTrackerManager opsC7).availableLayers = [0] ∧
    ((runStatusChanges NewStreamTrackerManager opsC7).availableLayers.Sorted (· < ·)) ∧
    (runStatusChanges NewStreamTrackerManager opsC7).availableLayers.Nodup ∧
    (∀ l, l ∈ (runStatusChanges NewStreamTrackerManager opsC7).availableLayers ↔
       (∃ st, lastStatusFor opsC7 l = some st ∧ st ≠ .stopped)) ∧
    (IsReducedQuality (runStatusChanges NewStreamTrackerManager opsC7) = true ↔
       ((runStatusChanges NewStreamTrackerManager opsC7).availableLayers.length : Int) <
         (runStatusChanges NewStreamTrackerManager opsC7).maxExpectedLayer + 1) ∧
    IsReducedQuality (runStatusChanges NewStreamTrackerManager opsC7) = true := by
  have h := C7_available_layers_invariant opsC7 NewStreamTrackerManager rfl
  exact ⟨rfl, by rfl, h.1, h.2.1, h.2.2.1, h.2.2.2, by rfl⟩

end LiveKit
